import Mathlib

/-!
Verification of the realtime-translator pipeline against its specification.

The definitions below are a shallow embedding of the JavaScript sources:
* `DeeplClient` embeds `src/assets/js/api/deeplClient.js` (translation queue,
  batch formation, dispatch, retry and error classification);
* `Session` embeds `src/assets/js/modules/assemblyAISpeechRecognition_v2.js`
  (socket lifecycle, reconnection, audio processing, PCM16 encoding);
* `Coordinator` embeds the final-transcript handling of
  `src/assets/js/app.js` (`onRecognitionResult`).

Machine integers are modelled as `Nat`/`Int` with explicit `% 2 ^ 16` where
the code truncates, audio samples as exact rationals, and the asynchronous
worker loop as a fueled recursion driven by an oracle of network outcomes
(one oracle entry per dispatched batch), which is faithful because the code
runs single-threaded and awaits each dispatch before touching the queue.
-/

namespace DeeplClient

/-- A pending translation request, as pushed by `translate`
(deeplClient.js lines 25-32). The promise is represented by its `id`:
settlement events below refer to requests by `id`. -/
structure PendingReq where
  text : String
  target_lang : String
  source_lang : Option String
  id : Nat
deriving DecidableEq, Repr

/-- `translate(text, target_lang, source_lang)` (deeplClient.js lines 18-37):
rejects unless `text` is a present, non-empty array, and otherwise enqueues a
single request carrying `text[0]` only.  `none` models a missing / non-array
argument, `some ts` an array argument. -/
def translate (text : Option (List String)) (target_lang : String)
    (source_lang : Option String) (id : Nat) : Except String PendingReq :=
  match text with
  | none => .error "Text is required and must be an array"
  | some [] => .error "Text is required and must be an array"
  | some (t :: _) => .ok ⟨t, target_lang, source_lang, id⟩

/-- Batch formation step of `processQueue` (deeplClient.js lines 50-58):
`splice(0, min(10, len))` removes the first up-to-10 requests; the batch is
the removed ones whose `target_lang` equals the head's; then
`differentLang` re-filters what is *left in the queue* (not the removed
part) and is prepended to it.  Returns `(batch, new pending queue)`. -/
def formBatch (q : List PendingReq) : List PendingReq × List PendingReq :=
  match q with
  | [] => ([], [])
  | first :: _ =>
    let spliced := q.take 10
    let remaining := q.drop 10
    let batch := spliced.filter (fun r => r.target_lang == first.target_lang)
    let differentLang := remaining.filter (fun r => r.target_lang != first.target_lang)
    (batch, differentLang ++ remaining)

/-- An error thrown by `executeBatchTranslation`: HTTP errors carry a
`statusCode` (deeplClient.js lines 115-118); plain network failures do not. -/
structure TError where
  statusCode : Option Nat
  message : String

/-- JS `String.prototype.includes`, via `splitOn`: a non-empty pattern
occurs in `m` iff splitting on it yields more than one part. -/
def msgIncludes (m pat : String) : Bool := (m.splitOn pat).length ≥ 2

/-- `isRetryableError` (deeplClient.js lines 160-172): status 429 or >= 500
is retryable; without a status code, fall back to message sniffing. -/
def isRetryableError (e : TError) : Bool :=
  match e.statusCode with
  | some c => c == 429 || c ≥ 500
  | none =>
      msgIncludes e.message "429" || msgIncludes e.message "500" ||
      msgIncludes e.message "502" || msgIncludes e.message "503" ||
      msgIncludes e.message "504"

/-- Outcome of one `executeBatchTranslation` network call, supplied by the
oracle: a successful response carrying a `translations` array, or an HTTP
error with its status code. -/
inductive Outcome where
  | ok (translations : List String)
  | err (status : Nat)
deriving DecidableEq, Repr

/-- A settlement of a request's promise: `resolve` with the translated text
or `reject`. -/
inductive Ev where
  | resolved (id : Nat) (text : String)
  | rejected (id : Nat)
deriving DecidableEq, Repr

/-- The request id a settlement event refers to. -/
def Ev.evId : Ev → Nat
  | .resolved i _ => i
  | .rejected i => i

/-- One loop iteration's observable dispatch: the ids sent in the batch and
the `delay` awaited afterwards (`none` when the code takes no delay, as in
the non-retryable branch). -/
structure Iter where
  batch : List Nat
  delayAfter : Option Nat
deriving DecidableEq, Repr

/-- Trace of a `processQueue` run: settlements in order, dispatches in
order, and the requests still pending when the oracle runs out. -/
structure DrainLog where
  events : List Ev
  iters : List Iter
  remaining : List PendingReq
deriving DecidableEq, Repr

/-- `handleBatchSuccess` (deeplClient.js lines 129-146) as settlement
events: positional resolution when the lengths agree, otherwise reject the
whole batch. -/
def handleBatchSuccess (batch : List PendingReq) (translations : List String) : List Ev :=
  if translations.length == batch.length then
    (batch.zip translations).map (fun p => Ev.resolved p.1.id p.2)
  else
    batch.map (fun r => Ev.rejected r.id)

/-- The `processQueue` worker loop (deeplClient.js lines 50-82), fueled by
the oracle (one entry per dispatch).  Success: settle via
`handleBatchSuccess`, delay 200 ms, continue on the new queue.  Retryable
error: `unshift(...batch)` (requeue at the head), delay 1000 ms, continue.
Non-retryable error: reject the batch, no delay, continue. -/
def drain : List Outcome → List PendingReq → DrainLog
  | _, [] => ⟨[], [], []⟩
  | [], q => ⟨[], [], q⟩
  | o :: os, q@(_ :: _) =>
    let bq := formBatch q
    match o with
    | .ok ts =>
      let L := drain os bq.2
      ⟨handleBatchSuccess bq.1 ts ++ L.events,
       ⟨bq.1.map (·.id), some 200⟩ :: L.iters, L.remaining⟩
    | .err s =>
      if isRetryableError ⟨some s, ""⟩ then
        let L := drain os (bq.1 ++ bq.2)
        ⟨L.events, ⟨bq.1.map (·.id), some 1000⟩ :: L.iters, L.remaining⟩
      else
        let L := drain os bq.2
        ⟨bq.1.map (fun r => Ev.rejected r.id) ++ L.events,
         ⟨bq.1.map (·.id), none⟩ :: L.iters, L.remaining⟩

/-- Unfolding equation for `drain` on a successful dispatch. -/
lemma drain_cons_ok (ts : List String) (os : List Outcome)
    (first : PendingReq) (rest : List PendingReq) :
    drain (Outcome.ok ts :: os) (first :: rest) =
      ⟨handleBatchSuccess (formBatch (first :: rest)).1 ts
         ++ (drain os (formBatch (first :: rest)).2).events,
       ⟨(formBatch (first :: rest)).1.map PendingReq.id, some 200⟩
         :: (drain os (formBatch (first :: rest)).2).iters,
       (drain os (formBatch (first :: rest)).2).remaining⟩ := rfl

/-- Unfolding equation for `drain` on a failed dispatch. -/
lemma drain_cons_err (s : Nat) (os : List Outcome)
    (first : PendingReq) (rest : List PendingReq) :
    drain (Outcome.err s :: os) (first :: rest) =
      if isRetryableError ⟨some s, ""⟩ then
        ⟨(drain os ((formBatch (first :: rest)).1 ++ (formBatch (first :: rest)).2)).events,
         ⟨(formBatch (first :: rest)).1.map PendingReq.id, some 1000⟩
           :: (drain os ((formBatch (first :: rest)).1
                ++ (formBatch (first :: rest)).2)).iters,
         (drain os ((formBatch (first :: rest)).1
            ++ (formBatch (first :: rest)).2)).remaining⟩
      else
        ⟨(formBatch (first :: rest)).1.map (fun r => Ev.rejected r.id)
           ++ (drain os (formBatch (first :: rest)).2).events,
         ⟨(formBatch (first :: rest)).1.map PendingReq.id, none⟩
           :: (drain os (formBatch (first :: rest)).2).iters,
         (drain os (formBatch (first :: rest)).2).remaining⟩ := rfl

/-- On a queue whose requests all share one target language, the splice
plus the two filters reduce to plain `take 10` / `drop 10`. -/
lemma formBatch_homog {L : String} {q : List PendingReq}
    (hq : ∀ r ∈ q, r.target_lang = L) :
    formBatch q = (q.take 10, q.drop 10) := by
  match q with
  | [] => rfl
  | first :: rest =>
    have hfirst : first.target_lang = L := hq first (List.mem_cons_self _ _)
    have h1 : ((first :: rest).take 10).filter
        (fun r => r.target_lang == first.target_lang) = (first :: rest).take 10 := by
      apply List.filter_eq_self.mpr
      intro a ha
      have haL : a.target_lang = L := hq a (List.take_subset _ _ ha)
      simp [haL, hfirst]
    have h2 : ((first :: rest).drop 10).filter
        (fun r => r.target_lang != first.target_lang) = [] := by
      apply List.filter_eq_nil_iff.mpr
      intro a ha
      have haL : a.target_lang = L := hq a (List.drop_subset _ _ ha)
      simp [haL, hfirst]
    simp only [formBatch]
    rw [h1, h2]
    simp

/-- The settlement events of one successful dispatch touch exactly the
batch's requests, in batch order. -/
lemma handleBatchSuccess_ids (b : List PendingReq) (ts : List String) :
    (handleBatchSuccess b ts).map Ev.evId = b.map PendingReq.id := by
  unfold handleBatchSuccess
  by_cases h : ts.length = b.length
  · simp only [h, beq_self_eq_true, if_true, List.map_map]
    have hz : (b.zip ts).map (fun p => p.1.id) =
        ((b.zip ts).map Prod.fst).map PendingReq.id := by
      rw [List.map_map]; rfl
    have hfst : (b.zip ts).map Prod.fst = b :=
      List.map_fst_zip b ts (le_of_eq h.symm)
    simpa [Ev.evId, Function.comp] using hz.trans (by rw [hfst])
  · have hb : (ts.length == b.length) = false := by simpa using h
    simp [hb, List.map_map, Ev.evId, Function.comp]

/-- Conservation of settlements: on a queue whose requests all share one
target language, the ids settled by a run followed by the ids still pending
are exactly the submitted ids, in submission order — nothing is lost,
duplicated or reordered, across successes, retries and rejections alike. -/
lemma drain_ids_homog {L : String} :
    ∀ (os : List Outcome) (q : List PendingReq), (∀ r ∈ q, r.target_lang = L) →
    ((drain os q).events.map Ev.evId) ++ ((drain os q).remaining.map PendingReq.id)
      = q.map PendingReq.id
  | [], q, _ => by cases q <;> simp [drain]
  | _ :: _, [], _ => by simp [drain]
  | o :: os, first :: rest, hq => by
    have hfb := formBatch_homog (L := L) (q := first :: rest) hq
    have hdrop : ∀ r ∈ (first :: rest).drop 10, r.target_lang = L :=
      fun r hr => hq r (List.drop_subset _ _ hr)
    have hsplit : ((first :: rest).take 10).map PendingReq.id
        ++ ((first :: rest).drop 10).map PendingReq.id
        = (first :: rest).map PendingReq.id := by
      rw [← List.map_append, List.take_append_drop]
    have hrej : (((first :: rest).take 10).map
          (fun r => Ev.rejected r.id)).map Ev.evId
        = ((first :: rest).take 10).map PendingReq.id := by
      rw [List.map_map]
      exact List.map_congr_left (fun r _ => rfl)
    cases o with
    | ok ts =>
      have ih := drain_ids_homog (L := L) os ((first :: rest).drop 10) hdrop
      rw [drain_cons_ok, hfb]
      simp only [List.map_append, handleBatchSuccess_ids]
      rw [List.append_assoc, ih, hsplit]
    | err s =>
      by_cases hr : isRetryableError ⟨some s, ""⟩ = true
      · have ih := drain_ids_homog (L := L) os
          ((first :: rest).take 10 ++ (first :: rest).drop 10)
          (by rw [List.take_append_drop]; exact hq)
        rw [drain_cons_err, if_pos hr, hfb]
        simp only
        rw [ih, List.take_append_drop]
      · have ih := drain_ids_homog (L := L) os ((first :: rest).drop 10) hdrop
        rw [drain_cons_err, if_neg hr, hfb]
        simp only [List.map_append]
        rw [hrej, List.append_assoc, ih, hsplit]

/-- Every dispatched batch is a filter of a 10-element splice, hence holds
at most 10 requests. -/
lemma formBatch_len (q : List PendingReq) : (formBatch q).1.length ≤ 10 := by
  match q with
  | [] => simp [formBatch]
  | first :: rest =>
    simp only [formBatch]
    calc (((first :: rest).take 10).filter
            (fun r => r.target_lang == first.target_lang)).length
        ≤ ((first :: rest).take 10).length := List.length_filter_le _ _
      _ ≤ 10 := by rw [List.length_take]; exact min_le_left _ _

/-- Both halves of `formBatch` draw only from the original queue. -/
lemma formBatch_sub (q : List PendingReq) :
    (∀ r ∈ (formBatch q).1, r ∈ q) ∧ (∀ r ∈ (formBatch q).2, r ∈ q) := by
  match q with
  | [] => simp [formBatch]
  | first :: rest =>
    constructor
    · intro r hr
      simp only [formBatch] at hr
      exact List.take_subset _ _ (List.mem_of_mem_filter hr)
    · intro r hr
      simp only [formBatch] at hr
      rcases List.mem_append.mp hr with h | h
      · exact List.drop_subset _ _ (List.mem_of_mem_filter h)
      · exact List.drop_subset _ _ h

/-- Every id dispatched in any iteration of a run belongs to the starting
queue. -/
lemma iters_batch_sub :
    ∀ (os : List Outcome) (q : List PendingReq) (i : Iter),
    i ∈ (drain os q).iters → ∀ n ∈ i.batch, n ∈ q.map PendingReq.id
  | [], q, i, hi => by cases q <;> simp [drain] at hi
  | _ :: _, [], i, hi => by simp [drain] at hi
  | o :: os, first :: rest, i, hi => by
    have hsub := formBatch_sub (first :: rest)
    have hhead : ∀ n ∈ ((formBatch (first :: rest)).1.map PendingReq.id),
        n ∈ (first :: rest).map PendingReq.id := by
      intro n hn
      simp only [List.mem_map] at hn ⊢
      obtain ⟨r, hr, rfl⟩ := hn
      exact ⟨r, hsub.1 r hr, rfl⟩
    have htail2 : ∀ n, n ∈ ((formBatch (first :: rest)).2.map PendingReq.id) →
        n ∈ (first :: rest).map PendingReq.id := by
      intro n hn
      simp only [List.mem_map] at hn ⊢
      obtain ⟨r, hr, rfl⟩ := hn
      exact ⟨r, hsub.2 r hr, rfl⟩
    cases o with
    | ok ts =>
      rw [drain_cons_ok] at hi
      simp only [List.mem_cons] at hi
      rcases hi with rfl | hi
      · exact hhead
      · intro n hn
        have hq2 := iters_batch_sub os (formBatch (first :: rest)).2 i hi n hn
        exact htail2 n hq2
    | err s =>
      rw [drain_cons_err] at hi
      by_cases hr : isRetryableError ⟨some s, ""⟩ = true
      · rw [if_pos hr] at hi
        simp only [List.mem_cons] at hi
        rcases hi with rfl | hi
        · exact hhead
        · intro n hn
          have hq2 := iters_batch_sub os
            ((formBatch (first :: rest)).1 ++ (formBatch (first :: rest)).2) i hi n hn
          simp only [List.mem_map] at hq2 ⊢
          obtain ⟨r, hrm, rfl⟩ := hq2
          rcases List.mem_append.mp hrm with h | h
          · exact ⟨r, hsub.1 r h, rfl⟩
          · exact ⟨r, hsub.2 r h, rfl⟩
      · rw [if_neg hr] at hi
        simp only [List.mem_cons] at hi
        rcases hi with rfl | hi
        · exact hhead
        · intro n hn
          have hq2 := iters_batch_sub os (formBatch (first :: rest)).2 i hi n hn
          exact htail2 n hq2

/-- No dispatched batch of any run ever exceeds 10 requests. -/
lemma iters_batch_len :
    ∀ (os : List Outcome) (q : List PendingReq) (i : Iter),
    i ∈ (drain os q).iters → i.batch.length ≤ 10
  | [], q, i, hi => by cases q <;> simp [drain] at hi
  | _ :: _, [], i, hi => by simp [drain] at hi
  | o :: os, first :: rest, i, hi => by
    cases o with
    | ok ts =>
      rw [drain_cons_ok] at hi
      simp only [List.mem_cons] at hi
      rcases hi with rfl | hi
      · simpa using formBatch_len (first :: rest)
      · exact iters_batch_len os _ i hi
    | err s =>
      rw [drain_cons_err] at hi
      by_cases hr : isRetryableError ⟨some s, ""⟩ = true
      · rw [if_pos hr] at hi
        simp only [List.mem_cons] at hi
        rcases hi with rfl | hi
        · simpa using formBatch_len (first :: rest)
        · exact iters_batch_len os _ i hi
      · rw [if_neg hr] at hi
        simp only [List.mem_cons] at hi
        rcases hi with rfl | hi
        · simpa using formBatch_len (first :: rest)
        · exact iters_batch_len os _ i hi

/-- For an error carrying an HTTP status, retryability is exactly
status 429 or status ≥ 500. -/
lemma isRetryable_status_iff (s : Nat) :
    isRetryableError ⟨some s, ""⟩ = true ↔ (s = 429 ∨ 500 ≤ s) := by
  simp [isRetryableError]

/-- When the response length matches the batch, settlement is positional
resolution. -/
lemma handleBatchSuccess_of_len (b : List PendingReq) (ts : List String)
    (h : ts.length = b.length) :
    handleBatchSuccess b ts = (b.zip ts).map (fun p => Ev.resolved p.1.id p.2) := by
  unfold handleBatchSuccess
  rw [if_pos (by simpa using h)]

/-- When the response length does not match the batch, the whole batch is
rejected. -/
lemma handleBatchSuccess_of_ne (b : List PendingReq) (ts : List String)
    (h : ts.length ≠ b.length) :
    handleBatchSuccess b ts = b.map (fun r => Ev.rejected r.id) := by
  unfold handleBatchSuccess
  rw [if_neg (by simpa using h)]

/-- Claim C7: a pending queue of 12 same-language requests drains as a
first batch of exactly the first 10 and a second batch of the remaining 2,
both dispatches and all settlements in original submission order, nothing
left pending; and in general no dispatched batch of any run exceeds 10
requests. -/
theorem claim_C7_batch_split (L : String) (q : List PendingReq)
    (ts1 ts2 : List String) (hq : ∀ r ∈ q, r.target_lang = L)
    (h12 : q.length = 12) (ht1 : ts1.length = 10) (ht2 : ts2.length = 2) :
    (drain [Outcome.ok ts1, Outcome.ok ts2] q).iters.map Iter.batch
        = [(q.take 10).map PendingReq.id, (q.drop 10).map PendingReq.id]
      ∧ (q.take 10).length = 10 ∧ (q.drop 10).length = 2
      ∧ (drain [Outcome.ok ts1, Outcome.ok ts2] q).events
          = ((q.take 10).zip ts1).map (fun p => Ev.resolved p.1.id p.2)
            ++ ((q.drop 10).zip ts2).map (fun p => Ev.resolved p.1.id p.2)
      ∧ (drain [Outcome.ok ts1, Outcome.ok ts2] q).remaining = []
      ∧ (∀ (os' : List Outcome) (q' : List PendingReq) (i : Iter),
          i ∈ (drain os' q').iters → i.batch.length ≤ 10) := by
  have hlen10 : (q.take 10).length = 10 := by
    rw [List.length_take, h12]; rfl
  have hlen2 : (q.drop 10).length = 2 := by
    rw [List.length_drop, h12]
  obtain ⟨first, rest, rfl⟩ : ∃ a t, q = a :: t := by
    cases q with
    | nil => simp at h12
    | cons a t => exact ⟨a, t, rfl⟩
  have hfb1 := formBatch_homog (L := L) (q := first :: rest) hq
  obtain ⟨a, t, hdt⟩ : ∃ a t2, (first :: rest).drop 10 = a :: t2 := by
    cases h : (first :: rest).drop 10 with
    | nil => rw [h] at hlen2; simp at hlen2
    | cons a t2 => exact ⟨a, t2, rfl⟩
  have hat_len : (a :: t).length = 2 := by rw [← hdt]; exact hlen2
  have hat_le : (a :: t).length ≤ 10 := by omega
  have hfb2 : formBatch (a :: t) = (a :: t, []) := by
    have hhom : ∀ r ∈ a :: t, r.target_lang = L := by
      rw [← hdt]
      exact fun r hr => hq r (List.drop_subset _ _ hr)
    rw [formBatch_homog (L := L) hhom, List.take_of_length_le hat_le,
      List.drop_eq_nil_of_le hat_le]
  have hb1 : handleBatchSuccess ((first :: rest).take 10) ts1
      = (((first :: rest).take 10).zip ts1).map (fun p => Ev.resolved p.1.id p.2) :=
    handleBatchSuccess_of_len _ _ (by rw [hlen10, ht1])
  have hb2 : handleBatchSuccess (a :: t) ts2
      = ((a :: t).zip ts2).map (fun p => Ev.resolved p.1.id p.2) :=
    handleBatchSuccess_of_len _ _ (by rw [hat_len, ht2])
  have hrun : drain [Outcome.ok ts1, Outcome.ok ts2] (first :: rest)
      = ⟨(((first :: rest).take 10).zip ts1).map (fun p => Ev.resolved p.1.id p.2)
           ++ ((a :: t).zip ts2).map (fun p => Ev.resolved p.1.id p.2),
         [⟨((first :: rest).take 10).map PendingReq.id, some 200⟩,
          ⟨(a :: t).map PendingReq.id, some 200⟩], []⟩ := by
    rw [drain_cons_ok, hfb1]
    simp only [hdt]
    rw [drain_cons_ok, hfb2]
    simp only [drain, hb1, hb2]
    simp
  refine ⟨?_, hlen10, hlen2, ?_, ?_, fun os' q' i hi => iters_batch_len os' q' i hi⟩
  · rw [hrun, hdt]; rfl
  · rw [hrun, hdt]
  · rw [hrun]

/-- Claim C7 witness: a concrete 12-request queue drains as 10 then 2. -/
theorem claim_C7_witness :
    (drain [Outcome.ok (List.replicate 10 "x"), Outcome.ok ["y", "z"]]
        ((List.range 12).map (fun i => ⟨"", "KO", none, i⟩))).iters.map Iter.batch
      = [[0, 1, 2, 3, 4, 5, 6, 7, 8, 9], [10, 11]] := by
  have h := claim_C7_batch_split "KO"
    ((List.range 12).map (fun i => ⟨"", "KO", none, i⟩))
    (List.replicate 10 "x") ["y", "z"]
    (by decide) (by decide) (by decide) (by decide)
  rw [h.1]
  decide

/-- Claim C1 (code bug): `processQueue`'s batch-formation step does not put
differing-language requests back.  With head language KO, an EN request
inside the 10-element splice is discarded outright — it reappears in no
later queue and its promise never settles — and an EN request beyond the
splice is duplicated (prepended while also left in place), so it is
dispatched twice in one batch and settled twice.  This contradicts the
code's own comment and the spec, which say such requests are moved aside
preserving order and re-examined on the next drain cycle. -/
theorem claim_C1_formation_drops_and_duplicates :
    formBatch [⟨"hello", "KO", none, 1⟩, ⟨"world", "EN", none, 2⟩]
        = ([⟨"hello", "KO", none, 1⟩], [])
      ∧ drain [Outcome.ok ["x"]]
          [⟨"hello", "KO", none, 1⟩, ⟨"world", "EN", none, 2⟩]
        = ⟨[Ev.resolved 1 "x"], [⟨[1], some 200⟩], []⟩
      ∧ (formBatch ((List.range 10).map (fun i => ⟨"", "KO", none, i⟩)
            ++ [⟨"", "EN", none, 10⟩])).2.map PendingReq.id = [10, 10]
      ∧ ((drain [Outcome.ok (List.replicate 10 "x"), Outcome.ok ["y", "z"]]
            ((List.range 10).map (fun i => ⟨"", "KO", none, i⟩)
              ++ [⟨"", "EN", none, 10⟩])).events.map Ev.evId).count 10 = 2 := by
  refine ⟨by decide, by decide, by decide, by decide⟩

/-- Claim C2, as stated, is false: in a mixed-language queue a submitted
request can be dropped by batch formation before any dispatch, so even
though the 429 batch is retried and resolves, the dropped request's promise
is never resolved nor rejected (it is in no settlement event and no longer
pending). -/
theorem claim_C2_counterexample :
    (drain [Outcome.err 429, Outcome.ok ["x"]]
        [⟨"hello", "KO", none, 1⟩, ⟨"world", "EN", none, 2⟩]).events
      = [Ev.resolved 1 "x"]
    ∧ (drain [Outcome.err 429, Outcome.ok ["x"]]
        [⟨"hello", "KO", none, 1⟩, ⟨"world", "EN", none, 2⟩]).remaining = [] := by
  refine ⟨by decide, by decide⟩

/-- Claim C2 (amended): statuses 429 and ≥ 500 are retryable; a retryable
dispatch failure settles nothing, requeues the entire batch at the head of
the pending list ahead of the not-yet-attempted requests, and the worker
waits 1000 ms before the next cycle; on a queue whose requests all share
one target language the requeued queue is exactly the original (no loss,
duplication or reordering), and over any run the settled ids followed by
the still-pending ids are exactly the submitted ids in submission order —
each request settles at most once, and exactly once when the queue fully
drains. -/
theorem claim_C2_retry_requeue :
    (∀ s : Nat, (s = 429 ∨ 500 ≤ s) → isRetryableError ⟨some s, ""⟩ = true)
    ∧ (∀ (s : Nat) (os : List Outcome) (first : PendingReq) (rest : List PendingReq),
        (s = 429 ∨ 500 ≤ s) →
        drain (Outcome.err s :: os) (first :: rest) =
          ⟨(drain os ((formBatch (first :: rest)).1 ++ (formBatch (first :: rest)).2)).events,
           ⟨(formBatch (first :: rest)).1.map PendingReq.id, some 1000⟩
             :: (drain os ((formBatch (first :: rest)).1
                  ++ (formBatch (first :: rest)).2)).iters,
           (drain os ((formBatch (first :: rest)).1
              ++ (formBatch (first :: rest)).2)).remaining⟩)
    ∧ (∀ (L : String) (q : List PendingReq), (∀ r ∈ q, r.target_lang = L) →
        (formBatch q).1 ++ (formBatch q).2 = q)
    ∧ (∀ (L : String) (os : List Outcome) (q : List PendingReq),
        (∀ r ∈ q, r.target_lang = L) →
        ((drain os q).events.map Ev.evId) ++ ((drain os q).remaining.map PendingReq.id)
          = q.map PendingReq.id) := by
  refine ⟨?_, ?_, ?_, fun L os q hq => drain_ids_homog (L := L) os q hq⟩
  · intro s hs
    exact (isRetryable_status_iff s).mpr hs
  · intro s os first rest hs
    rw [drain_cons_err, if_pos ((isRetryable_status_iff s).mpr hs)]
  · intro L q hq
    cases q with
    | nil => rfl
    | cons first rest =>
      rw [formBatch_homog (L := L) hq]
      exact List.take_append_drop _ _

/-- Claim C2 witness: a 503 failure on a two-request same-language queue
requeues both in order with a 1000 ms backoff, and the subsequent success
settles each exactly once. -/
theorem claim_C2_witness :
    isRetryableError ⟨some 503, ""⟩ = true
    ∧ drain [Outcome.err 503] [⟨"a", "KO", none, 1⟩, ⟨"b", "KO", none, 2⟩]
        = ⟨(drain [] ((formBatch [⟨"a", "KO", none, 1⟩, ⟨"b", "KO", none, 2⟩]).1
              ++ (formBatch [⟨"a", "KO", none, 1⟩, ⟨"b", "KO", none, 2⟩]).2)).events,
           ⟨(formBatch [⟨"a", "KO", none, 1⟩, ⟨"b", "KO", none, 2⟩]).1.map PendingReq.id,
             some 1000⟩
             :: (drain [] ((formBatch [⟨"a", "KO", none, 1⟩, ⟨"b", "KO", none, 2⟩]).1
                  ++ (formBatch [⟨"a", "KO", none, 1⟩, ⟨"b", "KO", none, 2⟩]).2)).iters,
           (drain [] ((formBatch [⟨"a", "KO", none, 1⟩, ⟨"b", "KO", none, 2⟩]).1
              ++ (formBatch [⟨"a", "KO", none, 1⟩, ⟨"b", "KO", none, 2⟩]).2)).remaining⟩
    ∧ ((drain [Outcome.err 503, Outcome.ok ["x", "y"]]
          [⟨"a", "KO", none, 1⟩, ⟨"b", "KO", none, 2⟩]).events.map Ev.evId)
        ++ ((drain [Outcome.err 503, Outcome.ok ["x", "y"]]
          [⟨"a", "KO", none, 1⟩, ⟨"b", "KO", none, 2⟩]).remaining.map PendingReq.id)
        = [1, 2] :=
  ⟨claim_C2_retry_requeue.1 503 (Or.inr (by decide)),
   claim_C2_retry_requeue.2.1 503 [] ⟨"a", "KO", none, 1⟩ [⟨"b", "KO", none, 2⟩]
     (Or.inr (by decide)),
   claim_C2_retry_requeue.2.2.2 "KO" [Outcome.err 503, Outcome.ok ["x", "y"]]
     [⟨"a", "KO", none, 1⟩, ⟨"b", "KO", none, 2⟩] (by decide)⟩

/-- Claim C6, as stated, is false on the code: in a mixed-language queue
the batch-formation bug (claim C1) leaves stale duplicate copies of
requests, so members of a 403-rejected batch are dispatched again in a
later cycle and settled a second time.  Queue: 10 KO requests (ids 0-9)
then 12 EN requests (ids 10-21).  After the first batch succeeds, the
corrupted queue holds every EN request twice; the second dispatch
[10..19] fails with 403 and rejects all ten, yet the third dispatch
[20, 21, 10..17] re-sends eight members of that rejected batch, and id 10
is settled twice (rejected, then resolved). -/
theorem claim_C6_counterexample :
    ((drain [Outcome.ok (List.replicate 10 "k"), Outcome.err 403,
        Outcome.ok (List.replicate 10 "e")]
        ((List.range 10).map (fun i => ⟨"", "KO", none, i⟩)
          ++ (List.range 12).map (fun i => ⟨"", "EN", none, 10 + i⟩))).iters.map
          Iter.batch
      = [[0, 1, 2, 3, 4, 5, 6, 7, 8, 9],
         [10, 11, 12, 13, 14, 15, 16, 17, 18, 19],
         [20, 21, 10, 11, 12, 13, 14, 15, 16, 17]])
    ∧ (((drain [Outcome.ok (List.replicate 10 "k"), Outcome.err 403,
          Outcome.ok (List.replicate 10 "e")]
          ((List.range 10).map (fun i => ⟨"", "KO", none, i⟩)
            ++ (List.range 12).map (fun i => ⟨"", "EN", none, 10 + i⟩))).events.map
            Ev.evId).count 10 = 2) := by
  refine ⟨by decide, by decide⟩

/-- Claim C6 (amended): an HTTP failure whose status is neither 429 nor
≥ 500 (such as 403) is not retryable: the dispatch rejects each request of
the batch once, in order, takes no backoff and does not requeue the batch;
provided the pending queue's requests share one target language and carry
distinct ids (the scope in which batch formation is uncorrupted — see the
counterexample and claim C1), no later iteration dispatches a member of
the failed batch again; a response whose translations count differs from
the batch size rejects the whole batch; and a matching success resolves
each request with the translation at its positional index. -/
theorem claim_C6_nonretryable_reject :
    (∀ s : Nat, isRetryableError ⟨some s, ""⟩ = true ↔ (s = 429 ∨ 500 ≤ s))
    ∧ (∀ (s : Nat) (os : List Outcome) (first : PendingReq) (rest : List PendingReq),
        ¬(s = 429 ∨ 500 ≤ s) →
        drain (Outcome.err s :: os) (first :: rest) =
          ⟨(formBatch (first :: rest)).1.map (fun r => Ev.rejected r.id)
             ++ (drain os (formBatch (first :: rest)).2).events,
           ⟨(formBatch (first :: rest)).1.map PendingReq.id, none⟩
             :: (drain os (formBatch (first :: rest)).2).iters,
           (drain os (formBatch (first :: rest)).2).remaining⟩)
    ∧ (∀ (L : String) (os : List Outcome) (first : PendingReq) (rest : List PendingReq),
        (∀ r ∈ first :: rest, r.target_lang = L) →
        ((first :: rest).map PendingReq.id).Nodup →
        ∀ i ∈ (drain os (formBatch (first :: rest)).2).iters,
          ∀ n ∈ i.batch, n ∉ (formBatch (first :: rest)).1.map PendingReq.id)
    ∧ (∀ (b : List PendingReq) (ts : List String), ts.length ≠ b.length →
        handleBatchSuccess b ts = b.map (fun r => Ev.rejected r.id))
    ∧ (∀ (b : List PendingReq) (ts : List String), ts.length = b.length →
        handleBatchSuccess b ts = (b.zip ts).map (fun p => Ev.resolved p.1.id p.2)) := by
  refine ⟨isRetryable_status_iff, ?_, ?_, handleBatchSuccess_of_ne, handleBatchSuccess_of_len⟩
  · intro s os first rest hs
    rw [drain_cons_err,
      if_neg (fun h => hs ((isRetryable_status_iff s).mp h))]
  · intro L os first rest hq hnd i hi n hn hmem
    have h1 := iters_batch_sub os (formBatch (first :: rest)).2 i hi n hn
    rw [formBatch_homog (L := L) hq] at h1 hmem
    have hsplit : (first :: rest).map PendingReq.id
        = ((first :: rest).take 10).map PendingReq.id
          ++ ((first :: rest).drop 10).map PendingReq.id := by
      rw [← List.map_append, List.take_append_drop]
    rw [hsplit] at hnd
    exact List.disjoint_of_nodup_append hnd hmem h1

/-- Claim C6 witness: a 403 on a two-request batch rejects both, in order,
with no backoff and no requeue. -/
theorem claim_C6_witness :
    (isRetryableError ⟨some 403, ""⟩ = true ↔ (403 = 429 ∨ 500 ≤ 403))
    ∧ drain [Outcome.err 403] [⟨"a", "KO", none, 1⟩, ⟨"b", "KO", none, 2⟩]
        = ⟨(formBatch [⟨"a", "KO", none, 1⟩, ⟨"b", "KO", none, 2⟩]).1.map
              (fun r => Ev.rejected r.id)
             ++ (drain [] (formBatch [⟨"a", "KO", none, 1⟩, ⟨"b", "KO", none, 2⟩]).2).events,
           ⟨(formBatch [⟨"a", "KO", none, 1⟩, ⟨"b", "KO", none, 2⟩]).1.map PendingReq.id,
             none⟩
             :: (drain [] (formBatch [⟨"a", "KO", none, 1⟩, ⟨"b", "KO", none, 2⟩]).2).iters,
           (drain [] (formBatch [⟨"a", "KO", none, 1⟩, ⟨"b", "KO", none, 2⟩]).2).remaining⟩
    ∧ handleBatchSuccess [⟨"a", "KO", none, 1⟩] []
        = [Ev.rejected 1] :=
  ⟨claim_C6_nonretryable_reject.1 403,
   claim_C6_nonretryable_reject.2.1 403 [] ⟨"a", "KO", none, 1⟩ [⟨"b", "KO", none, 2⟩]
     (by decide),
   by
     rw [claim_C6_nonretryable_reject.2.2.2.1 [⟨"a", "KO", none, 1⟩] [] (by decide)]
     rfl⟩

/-- Claim C10: `translate` enqueues a request carrying only the first
element of its input array — the tail never influences the enqueued
request — it rejects immediately when the input is missing or an empty
array, and every id a dispatched batch of any run carries comes from the
pending queue, so discarded tail elements appear in no batch. -/
theorem claim_C10_translate_first_only :
    (∀ (t : String) (r1 r2 : List String) (tl : String) (sl : Option String) (i : Nat),
        translate (some (t :: r1)) tl sl i = Except.ok ⟨t, tl, sl, i⟩
        ∧ translate (some (t :: r1)) tl sl i = translate (some (t :: r2)) tl sl i)
    ∧ (∀ (tl : String) (sl : Option String) (i : Nat),
        translate none tl sl i = Except.error "Text is required and must be an array")
    ∧ (∀ (tl : String) (sl : Option String) (i : Nat),
        translate (some []) tl sl i = Except.error "Text is required and must be an array")
    ∧ (∀ (os : List Outcome) (q : List PendingReq) (i : Iter),
        i ∈ (drain os q).iters → ∀ n ∈ i.batch, n ∈ q.map PendingReq.id) := by
  exact ⟨fun t r1 r2 tl sl i => ⟨rfl, rfl⟩, fun tl sl i => rfl, fun tl sl i => rfl,
    fun os q i hi => iters_batch_sub os q i hi⟩

/-- Claim C10 witness: with input `["a", "b"]` only `"a"` is enqueued, and
the single dispatched batch draws only from the queue. -/
theorem claim_C10_witness :
    translate (some ["a", "b"]) "KO" none 7 = Except.ok ⟨"a", "KO", none, 7⟩
    ∧ (∀ n ∈ (⟨[1], some 200⟩ : Iter).batch,
        n ∈ ([⟨"a", "KO", none, 1⟩] : List PendingReq).map PendingReq.id) :=
  ⟨(claim_C10_translate_first_only.1 "a" ["b"] [] "KO" none 7).1,
   claim_C10_translate_first_only.2.2.2 [Outcome.ok ["x"]] [⟨"a", "KO", none, 1⟩]
     ⟨[1], some 200⟩ (by decide)⟩

end DeeplClient

namespace Session

/-- Truncation toward zero, as JS `DataView.setInt16` applies (`ToInt16`)
to the scaled sample before reducing mod 2^16. -/
def truncQ (x : ℚ) : Int := if x < 0 then -(Int.floor (-x)) else Int.floor x

/-- JS `Math.min` on (non-NaN) numbers. -/
def jsMin (a b : ℚ) : ℚ := if a ≤ b then a else b

/-- JS `Math.max` on (non-NaN) numbers. -/
def jsMax (a b : ℚ) : ℚ := if b ≤ a then a else b

/-- Loop body of `convertFloat32ToInt16`
(assemblyAISpeechRecognition_v2.js lines 323-326): clamp the sample to
[-1, 1] with `Math.max(-1, Math.min(1, sample))`, scale negatives by
0x8000 and non-negatives by 0x7fff, and store the 16-bit two's-complement
pattern as two little-endian bytes. -/
def encodeSample (s : ℚ) : List Nat :=
  let sample := jsMax (-1) (jsMin 1 s)
  let scaled := if sample < 0 then sample * 32768 else sample * 32767
  let p := ((truncQ scaled) % (65536 : Int)).toNat
  [p % 256, p / 256]

/-- `convertFloat32ToInt16` (assemblyAISpeechRecognition_v2.js lines
318-329): a pure function from a frame of float samples to its PCM16
little-endian byte buffer. -/
def convertFloat32ToInt16 : List ℚ → List Nat
  | [] => []
  | s :: rest => encodeSample s ++ convertFloat32ToInt16 rest

/-- WebSocket ready states; `opened` models `WebSocket.OPEN`. -/
inductive ReadyState where
  | connecting
  | opened
  | closing
  | closed
deriving DecidableEq, Repr

/-- Observable side effects of the session (socket sends, timers, consumer
events). -/
inductive Effect where
  | sendFrame (bytes : List Nat)
  | sendTerminate
  | scheduleReconnect (delayMs : Nat)
  | emitEnd
  | emitError (kind : String)
deriving DecidableEq, Repr

/-- Mutable fields of `AssemblyAISpeechRecognitionModule` that the claims
touch; `websocket = none` models `this.websocket === null`, and the three
Booleans model whether the respective resource handle is held. -/
structure SessionState where
  websocket : Option ReadyState
  mediaStream : Bool
  audioContext : Bool
  processor : Bool
  isRecognizing : Bool
  lastFinalText : String
  reconnectAttempts : Nat
deriving DecidableEq, Repr

/-- `this.maxReconnectAttempts` (line 14). -/
def maxReconnectAttempts : Nat := 3

/-- `this.reconnectDelay` in milliseconds (line 15). -/
def reconnectDelay : Nat := 1000

/-- `cleanup()` (lines 386-414): release processor, audio context and
media stream unconditionally; send a termination message only if the
socket is currently open; null the socket. -/
def cleanup (s : SessionState) : SessionState × List Effect :=
  let effs := if s.websocket = some ReadyState.opened then [Effect.sendTerminate] else []
  ({ s with processor := false, audioContext := false, mediaStream := false,
            websocket := none }, effs)

/-- `handleWebSocketClose` (lines 216-230): while recognition is desired
and fewer than `maxReconnectAttempts` reconnects have been used, increment
the counter and schedule exactly one reconnect after
`reconnectDelay * reconnectAttempts` ms (the already-incremented counter);
otherwise clean up and emit `onEnd`.  (The app installs all callbacks, so
`callbacks.onEnd` is present.) -/
def handleWebSocketClose (s : SessionState) : SessionState × List Effect :=
  if s.isRecognizing = true ∧ s.reconnectAttempts < maxReconnectAttempts then
    ({ s with reconnectAttempts := s.reconnectAttempts + 1 },
     [Effect.scheduleReconnect (reconnectDelay * (s.reconnectAttempts + 1))])
  else
    let c := cleanup s
    (c.1, c.2 ++ [Effect.emitEnd])

/-- The socket's `onclose` handler (lines 132-141): null `this.websocket`,
then run `handleWebSocketClose`. -/
def onSocketClose (s : SessionState) : SessionState × List Effect :=
  handleWebSocketClose { s with websocket := none }

/-- `n` consecutive socket closes with no successful reopen in between
(each failed reconnect attempt surfaces as the next close), accumulating
emitted effects. -/
def closeStorm : Nat → SessionState → SessionState × List Effect
  | 0, s => (s, [])
  | n + 1, s =>
    let step := onSocketClose s
    let rest := closeStorm n step.1
    (rest.1, step.2 ++ rest.2)

/-- The `onaudioprocess` callback (lines 296-306): return without any
effect unless the socket exists and is open; otherwise encode the frame
and send it. -/
def onAudioProcess (s : SessionState) (frame : List ℚ) : List Effect :=
  match s.websocket with
  | some ReadyState.opened => [Effect.sendFrame (convertFloat32ToInt16 frame)]
  | _ => []

/-- `startAudioCapture` (lines 252-313): acquire a fresh media stream,
create a fresh `AudioContext` and a fresh script processor. -/
def startAudioCapture (s : SessionState) : SessionState :=
  { s with mediaStream := true, audioContext := true, processor := true }

/-- `reconnectWebSocket` (lines 235-247): re-open the socket (on open the
attempt counter resets, line 119); then, if a media stream is held,
`startAudioCapture()` is invoked again.  The Bool reports whether
`startAudioCapture` was invoked (the capture pipeline restarted); on a
failed connect only `onError` is emitted. -/
def reconnectWebSocket (s : SessionState) (connectOk : Bool) :
    SessionState × Bool × List Effect :=
  if connectOk then
    let s1 := { s with websocket := some ReadyState.opened, reconnectAttempts := 0 }
    if s1.mediaStream then (startAudioCapture s1, true, [])
    else (s1, false, [])
  else (s, false, [Effect.emitError "reconnection_failed"])

/-- `stop()` (lines 363-381): a no-op returning `false` when not
recognizing; otherwise clear the flag, clean up and emit `onEnd`. -/
def stop (s : SessionState) : Bool × SessionState × List Effect :=
  if s.isRecognizing = false then (false, s, [])
  else
    let c := cleanup { s with isRecognizing := false }
    (true, c.1, c.2 ++ [Effect.emitEnd])

lemma encode_one : encodeSample 1 = [255, 127] := by
  simp only [encodeSample, jsMin, jsMax, truncQ]
  norm_num
  decide

lemma encode_negone : encodeSample (-1) = [0, 128] := by
  simp only [encodeSample, jsMin, jsMax, truncQ]
  norm_num
  decide

lemma encode_zero : encodeSample 0 = [0, 0] := by
  simp only [encodeSample, jsMin, jsMax, truncQ]
  norm_num

/-- Samples at or above full scale clamp to 1. -/
lemma clamp_high {s : ℚ} (h : 1 ≤ s) : jsMax (-1) (jsMin 1 s) = 1 := by
  rw [jsMin, if_pos h, jsMax, if_neg (by norm_num)]

/-- Samples at or below negative full scale clamp to -1. -/
lemma clamp_low {s : ℚ} (h : s ≤ -1) : jsMax (-1) (jsMin 1 s) = -1 := by
  have h1 : jsMin 1 s = s := by rw [jsMin, if_neg (by linarith)]
  rw [h1, jsMax, if_pos h]

lemma encode_high {s : ℚ} (h : 1 ≤ s) : encodeSample s = [255, 127] := by
  have hc := clamp_high h
  simp only [encodeSample, hc]
  rw [← encode_one]
  simp only [encodeSample, jsMin, jsMax]
  norm_num

lemma encode_low {s : ℚ} (h : s ≤ -1) : encodeSample s = [0, 128] := by
  have hc := clamp_low h
  simp only [encodeSample, hc]
  rw [← encode_negone]
  simp only [encodeSample, jsMin, jsMax]
  norm_num

/-- Each sample contributes exactly two bytes. -/
lemma convert_length : ∀ samples : List ℚ,
    (convertFloat32ToInt16 samples).length = 2 * samples.length
  | [] => rfl
  | s :: rest => by
    have h2 : (encodeSample s).length = 2 := rfl
    simp only [convertFloat32ToInt16, List.length_append, h2, convert_length rest,
      List.length_cons]
    ring

/-- Claim C4: the PCM16 encoder is a pure function producing exactly
`2 * N` bytes for an `N`-sample frame, little-endian; each sample is
clamped to [-1, 1] (so over-range inputs encode like the boundary) and
scaled by 32768 when negative and 32767 otherwise; the boundary samples
1.0, -1.0 and 0.0 encode to patterns 0x7FFF, 0x8000 and 0x0000. -/
theorem claim_C4_encoder :
    (∀ samples : List ℚ,
        (convertFloat32ToInt16 samples).length = 2 * samples.length)
    ∧ convertFloat32ToInt16 [1] = [0xFF, 0x7F]
    ∧ convertFloat32ToInt16 [-1] = [0x00, 0x80]
    ∧ convertFloat32ToInt16 [0] = [0x00, 0x00]
    ∧ (∀ s : ℚ, 1 ≤ s → convertFloat32ToInt16 [s] = [0xFF, 0x7F])
    ∧ (∀ s : ℚ, s ≤ -1 → convertFloat32ToInt16 [s] = [0x00, 0x80]) := by
  refine ⟨convert_length, ?_, ?_, ?_, ?_, ?_⟩
  · show encodeSample 1 ++ [] = [0xFF, 0x7F]
    rw [encode_one]; rfl
  · show encodeSample (-1) ++ [] = [0x00, 0x80]
    rw [encode_negone]; rfl
  · show encodeSample 0 ++ [] = [0x00, 0x00]
    rw [encode_zero]; rfl
  · intro s h
    show encodeSample s ++ [] = [0xFF, 0x7F]
    rw [encode_high h]; rfl
  · intro s h
    show encodeSample s ++ [] = [0x00, 0x80]
    rw [encode_low h]; rfl

/-- Claim C4 witness: an over-range sample 2 encodes like 1.0 and an
under-range sample -3 like -1.0. -/
theorem claim_C4_witness :
    convertFloat32ToInt16 [2] = [0xFF, 0x7F]
    ∧ convertFloat32ToInt16 [-3] = [0x00, 0x80] :=
  ⟨claim_C4_encoder.2.2.2.2.1 2 (by norm_num),
   claim_C4_encoder.2.2.2.2.2 (-3) (by norm_num)⟩

/-- Claim C5: a socket close while recognition is desired and fewer than 3
reconnects are used schedules exactly one reconnect, after
`1000 * attemptNumber` ms with the attempt number counting from 1; a storm
of 4 closes with no successful reopen schedules reconnects after 1000,
2000 and 3000 ms and then — attempts exhausted — cleans up every resource,
nulls the socket (Closed) and emits `onEnd` exactly once. -/
theorem claim_C5_reconnect_backoff :
    (∀ s : SessionState, s.isRecognizing = true →
        s.reconnectAttempts < 3 →
        onSocketClose s
          = ({ s with
                websocket := none,
                reconnectAttempts := s.reconnectAttempts + 1 },
             [Effect.scheduleReconnect (1000 * (s.reconnectAttempts + 1))]))
    ∧ (∀ s : SessionState, s.isRecognizing = true →
        s.websocket = some ReadyState.opened → s.reconnectAttempts = 0 →
        s.mediaStream = true → s.audioContext = true → s.processor = true →
        (closeStorm 4 s).2
            = [Effect.scheduleReconnect 1000, Effect.scheduleReconnect 2000,
               Effect.scheduleReconnect 3000, Effect.emitEnd]
          ∧ (closeStorm 4 s).1.websocket = none
          ∧ (closeStorm 4 s).1.mediaStream = false
          ∧ (closeStorm 4 s).1.audioContext = false
          ∧ (closeStorm 4 s).1.processor = false
          ∧ (closeStorm 4 s).2.count Effect.emitEnd = 1) := by
  constructor
  · intro s h1 h2
    have hcond : ({ s with websocket := none } : SessionState).isRecognizing = true
        ∧ ({ s with websocket := none } : SessionState).reconnectAttempts
            < maxReconnectAttempts := ⟨h1, h2⟩
    rw [onSocketClose, handleWebSocketClose, if_pos hcond]
    rfl
  · intro s h1 h2 h3 h4 h5 h6
    obtain ⟨ws, ms, ac, pr, ir, lt, ra⟩ := s
    simp only at h1 h2 h3 h4 h5 h6
    subst h1 h2 h3 h4 h5 h6
    exact ⟨rfl, rfl, rfl, rfl, rfl, rfl⟩

/-- Claim C5 witness: the canonical freshly-opened recognizing state. -/
theorem claim_C5_witness :
    onSocketClose ⟨some ReadyState.opened, true, true, true, true, "", 0⟩
        = (⟨none, true, true, true, true, "", 1⟩, [Effect.scheduleReconnect 1000])
    ∧ (closeStorm 4 ⟨some ReadyState.opened, true, true, true, true, "", 0⟩).2
        = [Effect.scheduleReconnect 1000, Effect.scheduleReconnect 2000,
           Effect.scheduleReconnect 3000, Effect.emitEnd] :=
  ⟨claim_C5_reconnect_backoff.1 ⟨some ReadyState.opened, true, true, true, true, "", 0⟩
      rfl (by decide),
   (claim_C5_reconnect_backoff.2 ⟨some ReadyState.opened, true, true, true, true, "", 0⟩
      rfl rfl rfl rfl rfl rfl).1⟩

/-- Claim C9: the audio callback transmits a frame only when the socket
exists and is `OPEN` — otherwise it produces no effect at all — and
`stop()` in a non-recognizing state returns `false` with no state change
and no emitted events. -/
theorem claim_C9_send_only_when_open :
    (∀ (s : SessionState) (frame : List ℚ),
        s.websocket = some ReadyState.opened →
        onAudioProcess s frame = [Effect.sendFrame (convertFloat32ToInt16 frame)])
    ∧ (∀ (s : SessionState) (frame : List ℚ),
        s.websocket ≠ some ReadyState.opened →
        onAudioProcess s frame = [])
    ∧ (∀ s : SessionState, s.isRecognizing = false →
        stop s = (false, s, [])) := by
  refine ⟨?_, ?_, ?_⟩
  · intro s frame h
    rw [onAudioProcess, h]
  · intro s frame h
    rw [onAudioProcess]
    rcases hw : s.websocket with _ | rs
    · rfl
    · cases rs with
      | opened => exact absurd hw h
      | connecting => rfl
      | closing => rfl
      | closed => rfl
  · intro s h
    rw [stop, if_pos h]

/-- Claim C9 witness: an idle state with no socket sends nothing and
`stop()` is a no-op returning false. -/
theorem claim_C9_witness :
    onAudioProcess ⟨none, false, false, false, false, "", 0⟩ [1, 0] = []
    ∧ stop ⟨none, false, false, false, false, "", 0⟩
        = (false, ⟨none, false, false, false, false, "", 0⟩, []) :=
  ⟨claim_C9_send_only_when_open.2.1 ⟨none, false, false, false, false, "", 0⟩ [1, 0]
      (by decide),
   claim_C9_send_only_when_open.2.2 ⟨none, false, false, false, false, "", 0⟩ rfl⟩

/-- Claim C8, as stated, is false on the code: after a successful
reconnect with a media stream still held (the normal situation, since
`cleanup` was not run on this path), `reconnectWebSocket` *does* invoke
`startAudioCapture()` again — the capture pipeline is restarted, not
continued. -/
theorem claim_C8_counterexample :
    (reconnectWebSocket
        ⟨none, true, true, true, true, "", 1⟩ true).2.1 = true := rfl

/-- Claim C8 (amended): while the socket is absent during the reconnect
gap, every audio frame is discarded with no effect (nothing is queued —
the callback emits nothing and touches no state); a successful reconnect
re-opens the socket and resets the attempt counter; but when a media
stream is held the audio capture pipeline is restarted
(`startAudioCapture` runs again, re-acquiring stream, context and
processor); only without a media stream is the socket alone
re-established; a failed reconnect only emits `onError`. -/
theorem claim_C8_reconnect_restarts_capture :
    (∀ (s : SessionState) (frame : List ℚ), s.websocket = none →
        onAudioProcess s frame = [])
    ∧ (∀ s : SessionState, s.mediaStream = true →
        (reconnectWebSocket s true).2.1 = true
        ∧ (reconnectWebSocket s true).1
            = startAudioCapture
                { s with websocket := some ReadyState.opened, reconnectAttempts := 0 })
    ∧ (∀ s : SessionState, s.mediaStream = false →
        (reconnectWebSocket s true).2.1 = false
        ∧ (reconnectWebSocket s true).1
            = { s with websocket := some ReadyState.opened, reconnectAttempts := 0 })
    ∧ (∀ s : SessionState,
        reconnectWebSocket s false
          = (s, false, [Effect.emitError "reconnection_failed"])) := by
  refine ⟨?_, ?_, ?_, fun s => rfl⟩
  · intro s frame h
    rw [onAudioProcess, h]
  · intro s h
    constructor
    · rw [reconnectWebSocket, if_pos rfl]
      simp [h]
    · rw [reconnectWebSocket, if_pos rfl]
      simp [h]
  · intro s h
    constructor
    · rw [reconnectWebSocket, if_pos rfl]
      simp [h]
    · rw [reconnectWebSocket, if_pos rfl]
      simp [h]

/-- Claim C8 amended witness: during the gap a frame is dropped, and the
reconnect with a held media stream reports the capture restart. -/
theorem claim_C8_witness :
    onAudioProcess ⟨none, true, true, true, true, "", 1⟩ [1] = []
    ∧ (reconnectWebSocket ⟨none, true, true, true, true, "", 2⟩ true).2.1 = true :=
  ⟨claim_C8_reconnect_restarts_capture.1 ⟨none, true, true, true, true, "", 1⟩ [1] rfl,
   (claim_C8_reconnect_restarts_capture.2.1 ⟨none, true, true, true, true, "", 2⟩ rfl).1⟩

end Session

namespace Coordinator

/-- The whitespace characters JS `String.prototype.trim` strips (ASCII
set; transcripts in play are ASCII). -/
def isJsWS (c : Char) : Bool :=
  c == ' ' || c == '\t' || c == '\n' || c == '\r' || c == '\x0b' || c == '\x0c'

/-- Strip trailing whitespace from a character list. -/
def dropTrailingWS : List Char → List Char
  | [] => []
  | c :: rest =>
    match dropTrailingWS rest with
    | [] => if isJsWS c then [] else [c]
    | r => c :: r

/-- Strip leading then trailing whitespace. -/
def trimL (l : List Char) : List Char := dropTrailingWS (l.dropWhile isJsWS)

/-- JS `String.prototype.trim`, as used by `onRecognitionResult`
(app.js lines 240-241). -/
def jsTrim (s : String) : String := ⟨trimL s.data⟩

/-- `onRecognitionResult`'s final branch (app.js lines 239-256) for one
`Final` event: the event fires only with a truthy (non-empty)
`finalTranscript`; the trimmed text is accepted only when non-empty and
different from the trimmed `result.lastFinalText`.  On acceptance the
speech module's `lastFinalText` becomes the trimmed text
(`updateLastFinalText`, assemblyAISpeechRecognition_v2.js lines 432-434). -/
def acceptFinal (finalTranscript lastFinalText : String) : Option String :=
  if finalTranscript = "" then none
  else
    let trimmedText := jsTrim finalTranscript
    let lastTrimmedText := jsTrim lastFinalText
    if trimmedText ≠ "" ∧ trimmedText ≠ lastTrimmedText then some trimmedText
    else none

/-- The coordinator folded over a sequence of `Final` transcript events,
starting from the module's current `lastFinalText`; returns the texts
submitted for translation, in order (with the realtime-translation toggle
on, each accepted final is submitted once). -/
def processFinals (toggleOn : Bool) : String → List String → List String
  | _, [] => []
  | last, t :: ts =>
    match acceptFinal t last with
    | some trimmedText =>
        (if toggleOn then [trimmedText] else []) ++ processFinals toggleOn trimmedText ts
    | none => processFinals toggleOn last ts

lemma dropTrailingWS_idem :
    ∀ l : List Char, dropTrailingWS (dropTrailingWS l) = dropTrailingWS l
  | [] => rfl
  | c :: rest => by
    rw [dropTrailingWS]
    cases hr : dropTrailingWS rest with
    | nil =>
      by_cases hw : isJsWS c
      · simp [hw, dropTrailingWS]
      · simp [hw, dropTrailingWS]
    | cons d t =>
      have ih := dropTrailingWS_idem rest
      rw [hr] at ih
      simp only
      rw [dropTrailingWS, ih]

/-- Stripping trailing whitespace keeps the head element. -/
lemma dropTrailingWS_head : ∀ (l : List Char) (c : Char) (t : List Char),
    dropTrailingWS l = c :: t → ∃ t2, l = c :: t2
  | [], c, t, h => by simp [dropTrailingWS] at h
  | a :: rest, c, t, h => by
    rw [dropTrailingWS] at h
    cases hr : dropTrailingWS rest with
    | nil =>
      rw [hr] at h
      by_cases hw : isJsWS a
      · simp [hw] at h
      · simp [hw] at h
        exact ⟨rest, by rw [h.1]⟩
    | cons d t2 =>
      rw [hr] at h
      injection h with h1 h2
      exact ⟨rest, by rw [h1]⟩

/-- After stripping leading whitespace the head is not whitespace. -/
lemma dropWhile_head_not : ∀ (l : List Char) (c : Char) (t : List Char),
    l.dropWhile isJsWS = c :: t → isJsWS c = false
  | [], c, t, h => by simp [List.dropWhile] at h
  | a :: rest, c, t, h => by
    rw [List.dropWhile_cons] at h
    by_cases hw : isJsWS a
    · rw [if_pos (by simp [hw])] at h
      exact dropWhile_head_not rest c t h
    · rw [if_neg (by simp [hw])] at h
      cases h
      simpa using hw

lemma trimL_idem (l : List Char) : trimL (trimL l) = trimL l := by
  unfold trimL
  cases ht : dropTrailingWS (l.dropWhile isJsWS) with
  | nil => rfl
  | cons c t =>
    obtain ⟨t2, h2⟩ := dropTrailingWS_head _ _ _ ht
    have hc : isJsWS c = false := dropWhile_head_not l c t2 h2
    rw [List.dropWhile_cons, if_neg (by simp [hc])]
    rw [← ht, dropTrailingWS_idem]

/-- Trimming is idempotent, so the stored `lastFinalText` (already
trimmed) survives re-trimming in the comparison. -/
lemma jsTrim_idem (s : String) : jsTrim (jsTrim s) = jsTrim s := by
  unfold jsTrim
  simp only
  rw [trimL_idem]

/-- What acceptance implies. -/
lemma acceptFinal_some {t last tr : String} (h : acceptFinal t last = some tr) :
    tr = jsTrim t ∧ jsTrim t ≠ "" ∧ jsTrim t ≠ jsTrim last := by
  unfold acceptFinal at h
  by_cases h0 : t = ""
  · rw [if_pos h0] at h; cases h
  · rw [if_neg h0] at h
    simp only at h
    by_cases hc : jsTrim t ≠ "" ∧ jsTrim t ≠ jsTrim last
    · rw [if_pos hc] at h
      injection h with h1
      exact ⟨h1.symm, hc⟩
    · rw [if_neg hc] at h; cases h

/-- An event whose trimmed text matches the stored (trimmed) last final
text is dropped. -/
lemma acceptFinal_dup {t last u : String} (hlast : last = jsTrim u)
    (heq : jsTrim t = jsTrim u) : acceptFinal t last = none := by
  unfold acceptFinal
  by_cases h0 : t = ""
  · rw [if_pos h0]
  · rw [if_neg h0]
    simp only
    rw [if_neg]
    intro hc
    exact hc.2 (by rw [heq, hlast, jsTrim_idem])

/-- Claim C3, as stated, is false on the code: two consecutive `Final`
events with identical trimmed text can yield zero submissions instead of
exactly one — when the shared text equals the previously accepted final
text (first input), or when it trims to empty (second input; whitespace
transcripts are truthy in JS, so such events do reach the handler). -/
theorem claim_C3_counterexample :
    processFinals true "hello" ["hello", "hello"] = []
    ∧ processFinals true "" ["  ", "  "] = [] := ⟨rfl, rfl⟩

/-- Claim C3 (amended): with realtime translation on, two consecutive
`Final` events with identical trimmed text yield exactly one submission
provided that text is non-empty and differs from the previously accepted
final text — the second event is dropped because its trimmed text equals
the just-stored last final text; in all cases the pair yields at most one
submission. -/
theorem claim_C3_dedup :
    (∀ last t1 t2 : String, jsTrim t1 ≠ "" → jsTrim t1 ≠ jsTrim last →
        jsTrim t2 = jsTrim t1 →
        processFinals true last [t1, t2] = [jsTrim t1])
    ∧ (∀ last u1 u2 : String, jsTrim u2 = jsTrim u1 →
        (processFinals true last [u1, u2]).length ≤ 1) := by
  constructor
  · intro last t1 t2 h1 h2 h12
    have ht1ne : t1 ≠ "" := by
      intro h
      exact h1 (by rw [h]; rfl)
    have hacc : acceptFinal t1 last = some (jsTrim t1) := by
      unfold acceptFinal
      rw [if_neg ht1ne]
      simp only
      rw [if_pos ⟨h1, h2⟩]
    have hdrop : acceptFinal t2 (jsTrim t1) = none :=
      acceptFinal_dup rfl h12
    simp only [processFinals, hacc, hdrop]
    rfl
  · intro last u1 u2 h
    cases hA : acceptFinal u1 last with
    | none =>
      cases hB : acceptFinal u2 last with
      | none => simp [processFinals, hA, hB]
      | some tr => simp [processFinals, hA, hB]
    | some tr =>
      obtain ⟨htr, hne, hnl⟩ := acceptFinal_some hA
      have hdrop : acceptFinal u2 tr = none :=
        acceptFinal_dup htr (by rw [h])
      simp [processFinals, hA, hdrop]

/-- Claim C3 witness: from a fresh state, the pair `" hi "`, `"hi"` (equal
after trimming) submits exactly `"hi"` once; and a pair equal to the
previous final text submits at most once. -/
theorem claim_C3_witness :
    processFinals true "" [" hi ", "hi"] = ["hi"]
    ∧ (processFinals true "x" ["y", " y "]).length ≤ 1 :=
  ⟨claim_C3_dedup.1 "" " hi " "hi" (by decide) (by decide) (by decide),
   claim_C3_dedup.2 "x" "y" " y " (by decide)⟩

end Coordinator
